import Mathlib

/-!
Shallow embedding of the Semantic Scholar enrichment layer of zotero-roam:
* `src/components/GraphWatcher/Menus/helpers.ts` (cleanSemantic,
  cleanSemanticItem, compareItemsByYear, getAuthorLastName,
  makeAuthorsSummary, matchSemanticEntry);
* the Semantic Scholar client (axios instance with retries, augmentDOIs,
  fetchExternalIdsByPaperId, fetchSemantic).

Functions the repository imports from modules not included here
(`parseDOI`, `identifyChildren`, `encodeURIComponent`, `transformDOIs`)
are taken as explicit function parameters, so every theorem below holds
for all implementations of them.  JavaScript string truthiness (empty
string and `false`/`null`/`undefined` are falsy) is modelled explicitly.
-/

namespace ZoteroRoam

/-- JavaScript truthiness for a `string | false | null | undefined` value:
`none` stands for a falsy non-string, and the empty string is falsy. -/
def jsStrTruthy : Option String → Bool
  | none => false
  | some s => !(s == "")

/-- JavaScript `a || b` on string-or-falsy values. -/
def jsOrElse (a b : Option String) : Option String :=
  if jsStrTruthy a then a else b

/-- A JavaScript object of external identifiers, as an association list
(key, value); the Semantic Scholar `externalIds` object. -/
abbrev ExternalIds := List (String × String)

/-- Reading `externalIds?.DOI` on a possibly-missing object. -/
def extDOI (ids : Option ExternalIds) : Option String :=
  ids.bind (fun l => (l.find? (fun kv => kv.1 == "DOI")).map (fun kv => kv.2))

/-- JavaScript object spread `{...a, ...b}`: keys of `a` first (with the
value from `b` when `b` also has the key), then the new keys of `b`. -/
def jsSpreadMerge (a b : ExternalIds) : ExternalIds :=
  a.map (fun kv =>
    match b.find? (fun kv2 => kv2.1 == kv.1) with
    | some kv2 => (kv.1, kv2.2)
    | none => kv) ++
  b.filter (fun kv2 => (a.find? (fun kv => kv.1 == kv2.1)).isNone)

/-- An author record of a Semantic Scholar related paper. -/
structure SAuthor where
  name : String
deriving Repr, DecidableEq

/-- A Semantic Scholar related paper (`SemanticScholarAPI.RelatedPaper`):
an entry of the `citations` or `references` array.  `doi` is the
`string | false | null` field (after `transformDOIs`, `false` for no DOI). -/
structure RelatedPaper where
  paperId : Option String
  externalIds : Option ExternalIds
  doi : Option String
  title : String
  authors : List SAuthor
  year : Option Int
  venue : Option String
  url : Option String
  arxivId : Option String
  intent : List String
  isInfluential : Option Bool
deriving Repr, DecidableEq

/-- The `data` object of a Zotero top-level item (the fields used here). -/
structure ZItemData where
  key : String
  DOI : Option String
  title : Option String
deriving Repr, DecidableEq

/-- The `library` object of a Zotero item. -/
structure ZLibrary where
  type : String
  id : Nat
deriving Repr, DecidableEq

/-- The `meta` object of a Zotero item. -/
structure ZItemMeta where
  parsedDate : String
  creatorSummary : String
deriving Repr, DecidableEq

/-- A Zotero top-level item (`ZItemTop`); `key` is the citekey. -/
structure ZItemTop where
  key : String
  data : ZItemData
  library : ZLibrary
  meta : ZItemMeta
deriving Repr, DecidableEq

/-- The library datastore (`ZLibraryContents`).  PDF and note attachments
are only ever passed through to `identifyChildren`, so they are modelled
by opaque string stand-ins. -/
structure ZLibraryContents where
  items : List ZItemTop
  pdfs : List String
  notes : List String
deriving Repr, DecidableEq

/-- A Roam page record stored in the citekey map (always truthy in JS). -/
structure RoamPage where
  uid : String
deriving Repr, DecidableEq

/-- The Roam citekey map (`RCitekeyPages`), as an association list. -/
abbrev RCitekeyPages := List (String × RoamPage)

/-- `Map.get` on the citekey map followed by `|| false`:
`none` models `false`. -/
def rkGet (m : RCitekeyPages) (k : String) : Option RoamPage :=
  (m.find? (fun kv => kv.1 == k)).map (fun kv => kv.2)

/-- The `links` object built by `cleanSemanticItem`. -/
structure SCleanLinks where
  semanticScholar : Option String
  arxiv : Option String
  connectedPapers : Option String
  googleScholar : Option String
deriving Repr, DecidableEq

/-- The cleaned Semantic Scholar entry (`SCleanItem`). -/
structure SCleanItem where
  authors : String
  authorsLastNames : List String
  authorsString : String
  doi : Option String
  intent : List String
  isInfluential : Option Bool
  links : SCleanLinks
  meta : String
  title : String
  url : String
  year : String
  multiField : String
deriving Repr, DecidableEq

/-- The `inLibrary` annotation: the identified children together with the
matched raw Zotero item. -/
structure SLibAnnotation where
  children : List String
  raw : ZItemTop
deriving Repr, DecidableEq

/-- The result of `matchSemanticEntry`: the cleaned fields plus the
`inGraph` / `inLibrary` provenance annotations (`none` models `false`). -/
structure SEnrichedProps where
  item : SCleanItem
  inGraph : Option RoamPage
  inLibrary : Option SLibAnnotation
deriving Repr, DecidableEq

/-- The `_type` discriminant of an enriched entry. -/
inductive SEnrichedItemTypeEnum where
  | citing
  | cited
deriving Repr, DecidableEq

/-- An enriched entry of the final view (`SEnrichedItem` with `_type`). -/
structure SEnrichedItem where
  props : SEnrichedProps
  type : SEnrichedItemTypeEnum
deriving Repr, DecidableEq

/-- The `citations`/`references` payload passed to `cleanSemantic`
(either array may be absent). -/
structure SemPayload where
  citations : Option (List RelatedPaper)
  references : Option (List RelatedPaper)
deriving Repr, DecidableEq

/-- The view returned by `cleanSemantic` (`SRelatedEntries`). -/
structure SRelatedEntries where
  citations : List SEnrichedItem
  references : List SEnrichedItem
  backlinks : List SEnrichedItem
deriving Repr, DecidableEq

/-- ASCII lower-casing, the effect of `toLowerCase()` on the ASCII inputs
considered here. -/
def jsToLower (s : String) : String :=
  String.mk (s.toList.map Char.toLower)

/-- A regex `\w` character: `[A-Za-z0-9_]`. -/
def isWordChar (c : Char) : Bool :=
  (c ≥ 'a' && c ≤ 'z') || (c ≥ 'A' && c ≤ 'Z') || (c ≥ '0' && c ≤ '9') || c == '_'

/-- An ASCII regex `\s` character. -/
def isSpaceChar (c : Char) : Bool :=
  c == ' ' || c == '\t' || c == '\n' || c == '\r' || c == '\x0b' || c == '\x0c'

/-- Replace every maximal run of `\s` characters by a single space
(the effect of `.replace(/\s+/g, ' ')`). -/
def collapseSpacesAux : List Char → Bool → List Char
  | [], _ => []
  | c :: rest, prevSpace =>
    if isSpaceChar c then
      if prevSpace then collapseSpacesAux rest true
      else ' ' :: collapseSpacesAux rest true
    else c :: collapseSpacesAux rest false

/-- Remove leading and trailing spaces (the effect of `.trim()` after
space collapsing). -/
def trimSpaces (l : List Char) : List Char :=
  ((l.dropWhile (fun c => c == ' ')).reverse.dropWhile (fun c => c == ' ')).reverse

/-- The title normalisation of `matchSemanticEntry`: lowercase, replace
`[^\w\s]` by a space, collapse `\s+` to one space, trim. -/
def normalizeTitle (title : String) : String :=
  let step1 := (jsToLower title).toList.map
    (fun c => if isWordChar c || isSpaceChar c then c else ' ')
  String.mk (trimSpaces (collapseSpacesAux step1 false))

/-- Substring test on character lists (JavaScript `String.includes`). -/
def listIncludes (needle : List Char) : List Char → Bool
  | [] => needle.isEmpty
  | c :: rest => needle.isPrefixOf (c :: rest) || listIncludes needle rest

/-- JavaScript `hay.includes(needle)`. -/
def strIncludes (hay needle : String) : Bool :=
  listIncludes needle.toList hay.toList

/-- Whether the second list of characters begins with the first. -/
def charsBeginWith : List Char → List Char → Bool
  | [], _ => true
  | _ :: _, [] => false
  | n :: ns, h :: hs => n == h && charsBeginWith ns hs

/-- The effect of `.replace(/^(https?:\/\/)?(dx\.)?doi\.org\//, '')`:
the leading URL part is removed only when the whole pattern, ending in
`doi.org/`, is present. -/
def stripDOIUrl (s : String) : String :=
  let cs := s.toList
  let s1 := if charsBeginWith "https://".toList cs then cs.drop 8
            else if charsBeginWith "http://".toList cs then cs.drop 7 else cs
  let s2 := if charsBeginWith "dx.".toList s1 then s1.drop 3 else s1
  if charsBeginWith "doi.org/".toList s2 then String.mk (s2.drop 8) else s

/-- The first segment of `venue.split(/ ?:/)`: everything before the
first colon, with one immediately preceding space removed. -/
def venueFirstSegment (venue : String) : String :=
  let cs := venue.toList
  match cs.findIdx? (fun c => c == ':') with
  | none => venue
  | some i =>
    let pre := cs.take i
    String.mk (if pre.getLast? == some ' ' then pre.dropLast else pre)

/-- Embedding of `getAuthorLastName` of helpers.ts. -/
def getAuthorLastName (name : String) : String :=
  if name == "" then ""
  else
    let components := ((name.replace "." " ").splitOn " ").filter (fun c => c != "")
    match components with
    | [c] => c
    | _ => String.intercalate " " ((components.drop 1).filter (fun c => c.length > 1))

/-- Embedding of `makeAuthorsSummary` of helpers.ts (a switch on the
length of the list, reading the first three names by index). -/
def makeAuthorsSummary (names : List String) : String :=
  match names with
  | [] => ""
  | [a] => a
  | [a, b] => a ++ " & " ++ b
  | [a, b, c] => a ++ ", " ++ b ++ " & " ++ c
  | a :: _ => a ++ " et al."

/-- Embedding of `cleanSemanticItem` of helpers.ts.  `parseDOI` and
`encodeURIComponent` are imported by the source from modules not part of
this embedding and are taken as parameters. -/
def cleanSemanticItem (parseDOI : Option String → Option String)
    (encodeURIComponent : String → String) (item : RelatedPaper) : SCleanItem :=
  let extractedDOI := jsOrElse (extDOI item.externalIds) (jsOrElse item.doi none)
  let parsedDOI := parseDOI extractedDOI
  let authorsLastNames := item.authors.map (fun a => getAuthorLastName a.name)
  let authorsString := String.intercalate " " authorsLastNames
  let authors := makeAuthorsSummary authorsLastNames
  let year := match item.year with
    | some y => if y == 0 then "" else toString y
    | none => ""
  let links : SCleanLinks :=
    { semanticScholar :=
        if jsStrTruthy item.paperId then
          some ("https://www.semanticscholar.org/paper/" ++ item.paperId.getD "")
        else none
      arxiv :=
        if jsStrTruthy item.arxivId then
          some ("https://arxiv.org/abs/" ++ item.arxivId.getD "")
        else none
      connectedPapers :=
        if jsStrTruthy item.doi || !(item.title == "") then
          some ("https://www.connectedpapers.com/" ++
            (if jsStrTruthy item.doi then "api/redirect/doi/" ++ item.doi.getD ""
             else "search?q=" ++ encodeURIComponent item.title))
        else none
      googleScholar :=
        if jsStrTruthy item.doi || !(item.title == "") then
          some ("https://scholar.google.com/scholar?q=" ++
            (if jsStrTruthy item.doi then item.doi.getD ""
             else encodeURIComponent item.title))
        else none }
  let multiField := String.intercalate " "
    (([authorsString, year, item.title]).filter (fun s => s != ""))
  { authors := authors
    authorsLastNames := authorsLastNames
    authorsString := authorsString
    doi := parsedDOI
    intent := item.intent
    isInfluential := item.isInfluential
    links := links
    meta := venueFirstSegment ((jsOrElse item.venue none).getD "")
    title := item.title
    url := (jsOrElse item.url none).getD ""
    year := year
    multiField := multiField }

/-- The first-try predicate of `matchSemanticEntry`: strict equality of
the parsed library DOI with the parsed Semantic Scholar DOI. -/
def exactDOIPred (parseDOI : Option String → Option String) (d : String)
    (it : ZItemTop) : Bool :=
  parseDOI it.data.DOI == some d

/-- The second-try predicate of `matchSemanticEntry`: case-insensitive
DOI equality, or equality after stripping a doi.org URL part and
lower-casing. -/
def flexDOIPred (parseDOI : Option String → Option String) (d : String)
    (it : ZItemTop) : Bool :=
  match parseDOI it.data.DOI with
  | none => false
  | some l =>
    if l == "" then false
    else if jsToLower l == jsToLower d then true
    else jsToLower (stripDOIUrl d) == jsToLower (stripDOIUrl l)

/-- The title predicate of `matchSemanticEntry`, against the normalised
Semantic Scholar title: exact normalised equality, or, when the
normalised Semantic Scholar title is longer than 20 characters,
substring containment in either direction. -/
def titleMatchPred (semNorm : String) (it : ZItemTop) : Bool :=
  match it.data.title with
  | none => false
  | some t =>
    if t == "" then false
    else
      let libNorm := normalizeTitle t
      libNorm == semNorm ||
        (semNorm.length > 20 &&
          (strIncludes libNorm semNorm || strIncludes semNorm libNorm))

/-- The library search of `matchSemanticEntry`: when the entry has a
truthy parsed DOI, first scan for an exact DOI match, then for a flexible
DOI match; only when no item was found by DOI (or there is no DOI) and
the title is truthy, scan by title. -/
def findLibItem (parseDOI : Option String → Option String) (doi : Option String)
    (title : String) (items : List ZItemTop) : Option ZItemTop :=
  let byDOI : Option ZItemTop :=
    match doi with
    | some d =>
      if d == "" then none
      else
        match items.find? (exactDOIPred parseDOI d) with
        | some it => some it
        | none => items.find? (flexDOIPred parseDOI d)
    | none => none
  match byDOI with
  | some it => some it
  | none =>
    if title == "" then none
    else items.find? (titleMatchPred (normalizeTitle title))

/-- Embedding of `matchSemanticEntry` of helpers.ts.  `identifyChildren`
is imported by the source from a module not part of this embedding and is
taken as a parameter. -/
def matchSemanticEntry (parseDOI : Option String → Option String)
    (encodeURIComponent : String → String)
    (identifyChildren : String → String → List String → List String → List String)
    (semanticItem : RelatedPaper) (datastore : ZLibraryContents)
    (roamCitekeys : RCitekeyPages) : SEnrichedProps :=
  let cleanItem := cleanSemanticItem parseDOI encodeURIComponent semanticItem
  match findLibItem parseDOI cleanItem.doi cleanItem.title datastore.items with
  | none =>
    { item := cleanItem, inGraph := none, inLibrary := none }
  | some libItem =>
    let itemKey := libItem.data.key
    let location := libItem.library.type ++ "s/" ++ toString libItem.library.id
    let children := identifyChildren itemKey location datastore.pdfs datastore.notes
    { item := cleanItem
      inGraph := rkGet roamCitekeys ("@" ++ libItem.key)
      inLibrary := some { children := children, raw := libItem } }

/-- The datastore restricted to items whose DOI parses to a truthy value,
as built at the top of `cleanSemantic`. -/
def withDOIs (parseDOI : Option String → Option String)
    (datastore : ZLibraryContents) : ZLibraryContents :=
  { items := datastore.items.filter (fun it => jsStrTruthy (parseDOI it.data.DOI))
    pdfs := datastore.pdfs
    notes := datastore.notes }

/-- Modelled from the spec: `isSBacklink` (imported from a types module
not part of this embedding) holds of the entries that matched the
library, i.e. whose `inLibrary` is not `false`. -/
def isSBacklink (e : SEnrichedItem) : Bool :=
  e.props.inLibrary.isSome

/-- Embedding of `cleanSemantic` of helpers.ts. -/
def cleanSemantic (parseDOI : Option String → Option String)
    (encodeURIComponent : String → String)
    (identifyChildren : String → String → List String → List String → List String)
    (datastore : ZLibraryContents) (semantic : SemPayload)
    (roamCitekeys : RCitekeyPages) : SRelatedEntries :=
  let ds := withDOIs parseDOI datastore
  let citations := semantic.citations.getD []
  let references := semantic.references.getD []
  let clean_citations := citations.map (fun cit =>
    { props := matchSemanticEntry parseDOI encodeURIComponent identifyChildren cit ds roamCitekeys
      type := SEnrichedItemTypeEnum.citing })
  let clean_references := references.map (fun r =>
    { props := matchSemanticEntry parseDOI encodeURIComponent identifyChildren r ds roamCitekeys
      type := SEnrichedItemTypeEnum.cited })
  { citations := clean_citations
    references := clean_references
    backlinks := (clean_references ++ clean_citations).filter isSBacklink }

/-- Embedding of `compareItemsByYear` of helpers.ts.  `getUTCFullYear`
(the year of `new Date(parsedDate)`) is taken as a parameter; an empty
`parsedDate` is falsy. -/
def compareItemsByYear (getUTCFullYear : String → Int) (a b : ZItemTop) : Int :=
  if a.meta.parsedDate == "" then
    if b.meta.parsedDate == "" then
      if a.meta.creatorSummary < b.meta.creatorSummary then -1 else 1
    else 1
  else
    if b.meta.parsedDate == "" then -1
    else
      let date_diff := getUTCFullYear a.meta.parsedDate - getUTCFullYear b.meta.parsedDate
      if date_diff < 0 then -1
      else if date_diff == 0 then
        if a.meta.creatorSummary < b.meta.creatorSummary then -1 else 1
      else 1

/-- Whether an `Except` value is a success. -/
def exceptIsOk : Except String α → Bool
  | Except.ok _ => true
  | Except.error _ => false

/-- Modelled from the spec: the axios-retry wrapper (the library itself
is not part of the repository; the configuration `retries: 3` is).
`attempts i` is the outcome of the i-th attempt of the request; the
request is re-issued after a failure while retries remain, so the result
is the first success among attempts `i .. i+fuel`, or the outcome of the
last attempt. -/
def runRetryFrom (attempts : Nat → Except String α) : Nat → Nat → Except String α
  | i, 0 => attempts i
  | i, Nat.succ fuel =>
    match attempts i with
    | Except.ok a => Except.ok a
    | Except.error _ => runRetryFrom attempts (i + 1) fuel

/-- Modelled from the spec: a request through the Semantic Scholar axios
client, with the configured number of retries. -/
def runWithRetry (retries : Nat) (attempts : Nat → Except String α) : Except String α :=
  runRetryFrom attempts 0 retries

/-- The retry count configured on the Semantic Scholar client. -/
def semanticRetries : Nat := 3

/-- The response body of the by-paperId `externalIds` lookup
(`SemanticScholarAPI.BasePaper`, the fields read by the client). -/
structure BasePaperResp where
  externalIds : Option ExternalIds
  paperId : Option String
deriving Repr, DecidableEq

/-- The response body of the main `/paper/DOI:{doi}` request
(the fields read by `fetchSemantic`). -/
structure SItemPayload where
  citations : Option (List RelatedPaper)
  references : Option (List RelatedPaper)
deriving Repr, DecidableEq

/-- The HTTP environment of the client: the attempt outcomes of the main
paper request and, per paperId, of the `externalIds` backfill request. -/
structure SemanticOracle where
  mainAttempts : Nat → Except String SItemPayload
  extAttempts : String → Nat → Except String BasePaperResp

/-- Embedding of `fetchExternalIdsByPaperId`: the request (with retries),
with every error caught and turned into `null`. -/
def fetchExternalIdsByPaperId (oracle : SemanticOracle) (paperId : String) :
    Option BasePaperResp :=
  match runWithRetry semanticRetries (oracle.extAttempts paperId) with
  | Except.ok d => some { externalIds := d.externalIds, paperId := d.paperId }
  | Except.error _ => none

/-- The body of the `Promise.all` map of `augmentDOIs`, for one entry:
return the entry unchanged when it already has `externalIds.DOI` or has
no truthy `paperId`; otherwise look up its external ids and, when a DOI
was fetched, merge the fetched ids into `externalIds`. -/
def augmentOne (oracle : SemanticOracle) (p : RelatedPaper) : RelatedPaper :=
  if jsStrTruthy (extDOI p.externalIds) || !(jsStrTruthy p.paperId) then p
  else
    match fetchExternalIdsByPaperId oracle (p.paperId.getD "") with
    | none => p
    | some fetched =>
      if jsStrTruthy (extDOI fetched.externalIds) then
        { p with externalIds := some (jsSpreadMerge (p.externalIds.getD []) (fetched.externalIds.getD [])) }
      else p

/-- Embedding of `augmentDOIs`: a missing (or non-array) input yields the
empty list; otherwise each entry is processed independently by
`augmentOne` (the source issues all lookups at once with `Promise.all`
over `list.map`). -/
def augmentDOIs (oracle : SemanticOracle) (arr : Option (List RelatedPaper)) :
    List RelatedPaper :=
  match arr with
  | none => []
  | some list => list.map (augmentOne oracle)

/-- The paperIds for which `augmentDOIs` issues a backfill lookup:
exactly the entries without a truthy `externalIds.DOI` and with a truthy
`paperId`, one lookup each. -/
def issuedLookups (list : List RelatedPaper) : List String :=
  list.filterMap (fun p =>
    if jsStrTruthy (extDOI p.externalIds) || !(jsStrTruthy p.paperId) then none
    else some (p.paperId.getD ""))

/-- The value resolved by `fetchSemantic` (`Queries.Data.Semantic`). -/
structure SemanticData where
  doi : String
  citations : List RelatedPaper
  references : List RelatedPaper
deriving Repr, DecidableEq

/-- The observable outcome of `fetchSemantic`: the settled promise and
whether the extension's error handler was invoked. -/
structure FetchOutcome where
  result : Except String SemanticData
  errorReported : Bool
deriving Repr

/-- Embedding of `fetchSemantic`: the main request (with retries); on
success, both arrays are backfilled by `augmentDOIs` and transformed by
`transformDOIs` (imported from a module not part of this embedding,
taken as a parameter); on failure, the error is reported through the
extension's error handler and the promise rejects with it. -/
def fetchSemantic (transformDOIs : List RelatedPaper → List RelatedPaper)
    (oracle : SemanticOracle) (doi : String) : FetchOutcome :=
  match runWithRetry semanticRetries oracle.mainAttempts with
  | Except.error e => { result := Except.error e, errorReported := true }
  | Except.ok item =>
    let citationsWithDOI := augmentDOIs oracle item.citations
    let referencesWithDOI := augmentDOIs oracle item.references
    { result := Except.ok
        { doi := doi
          citations := transformDOIs citationsWithDOI
          references := transformDOIs referencesWithDOI }
      errorReported := false }

/-- The number of library items examined by one `Array.find` scan:
items are inspected in list order up to and including the first one
satisfying the predicate. -/
def findScan (p : α → Bool) : List α → Nat
  | [] => 0
  | a :: l => if p a then 1 else 1 + findScan p l

/-- The number of library items examined by the search of
`matchSemanticEntry` (the cost of `findLibItem`, scan by scan). -/
def matchScanCount (parseDOI : Option String → Option String) (doi : Option String)
    (title : String) (items : List ZItemTop) : Nat :=
  let titleScan : Nat :=
    if title == "" then 0 else findScan (titleMatchPred (normalizeTitle title)) items
  match doi with
  | some d =>
    if d == "" then titleScan
    else
      match items.find? (exactDOIPred parseDOI d) with
      | some _ => findScan (exactDOIPred parseDOI d) items
      | none =>
        let doiScans := findScan (exactDOIPred parseDOI d) items +
          findScan (flexDOIPred parseDOI d) items
        match items.find? (flexDOIPred parseDOI d) with
        | some _ => doiScans
        | none => doiScans + titleScan
  | none => titleScan

/-- The total number of library items examined by `cleanSemantic` while
matching the whole payload. -/
def cleanSemanticScanCount (parseDOI : Option String → Option String)
    (encodeURIComponent : String → String) (datastore : ZLibraryContents)
    (semantic : SemPayload) : Nat :=
  let m := (withDOIs parseDOI datastore).items
  (((semantic.citations.getD []) ++ (semantic.references.getD [])).map
    (fun s =>
      let cleanItem := cleanSemanticItem parseDOI encodeURIComponent s
      matchScanCount parseDOI cleanItem.doi cleanItem.title m)).sum

/-! Concrete instances used by the witnesses and counterexamples below.
`wPd` (an identity parseDOI), `wEnc` and `wIdc` are simple concrete
instantiations of the parameters standing for functions imported from
modules not part of this embedding. -/

/-- A concrete parseDOI instantiation: the identity on present strings. -/
def wPd : Option String → Option String := fun x => x

/-- A concrete encodeURIComponent instantiation. -/
def wEnc : String → String := fun s => s

/-- A concrete identifyChildren instantiation. -/
def wIdc : String → String → List String → List String → List String :=
  fun _ _ _ _ => []

/-- A concrete Roam citekey map with one page. -/
def wRk : RCitekeyPages := [("@smith2020", { uid := "uid1" })]

/-- A Semantic Scholar entry with DOI `10.1/x`. -/
def dupPaper : RelatedPaper :=
  { paperId := some "P1"
    externalIds := some [("DOI", "10.1/x")]
    doi := some "10.1/x"
    title := "A duplicated paper"
    authors := []
    year := some 2020
    venue := none
    url := none
    arxivId := none
    intent := []
    isInfluential := none }

/-- A Semantic Scholar entry from 2020. -/
def paper2020 : RelatedPaper :=
  { dupPaper with
    paperId := some "P2"
    externalIds := some [("DOI", "10.1/b")]
    doi := some "10.1/b"
    title := "Newer paper"
    year := some 2020 }

/-- A Semantic Scholar entry from 2010. -/
def paper2010 : RelatedPaper :=
  { dupPaper with
    paperId := some "P3"
    externalIds := some [("DOI", "10.1/c")]
    doi := some "10.1/c"
    title := "Older paper"
    year := some 2010 }

/-- A Semantic Scholar entry with a paperId and no DOI anywhere. -/
def paperNoDOI : RelatedPaper :=
  { dupPaper with
    paperId := some "X"
    externalIds := none
    doi := none
    title := "An entry with no DOI" }

/-- A Semantic Scholar entry without a paperId. -/
def paperNoId : RelatedPaper :=
  { paperNoDOI with paperId := none }

/-- An empty library datastore. -/
def dsEmpty : ZLibraryContents := { items := [], pdfs := [], notes := [] }

/-- A Zotero item whose DOI is `10.1/x` and whose citekey is in `wRk`. -/
def libItemA : ZItemTop :=
  { key := "smith2020"
    data := { key := "KEYA", DOI := some "10.1/x", title := some "An example library title" }
    library := { type := "user", id := 1 }
    meta := { parsedDate := "2020-01-01", creatorSummary := "Smith" } }

/-- A one-item library datastore containing `libItemA`. -/
def dsA : ZLibraryContents := { items := [libItemA], pdfs := ["pdf1"], notes := ["note1"] }

/-- An empty Semantic Scholar payload. -/
def semEmpty : SemPayload := { citations := some [], references := some [] }

/-- An oracle whose backfill requests always fail (every attempt). -/
def wOracleBackfillFail : SemanticOracle :=
  { mainAttempts := fun _ => Except.ok { citations := some [paperNoDOI], references := some [] }
    extAttempts := fun _ _ => Except.error "network error" }

/-- A second oracle with the same backfill attempts but a different main
request. -/
def wOracleBackfillFail2 : SemanticOracle :=
  { mainAttempts := fun _ => Except.error "different main"
    extAttempts := fun _ _ => Except.error "network error" }

/-- An oracle whose backfill requests succeed with a DOI. -/
def wOracleOk : SemanticOracle :=
  { mainAttempts := fun _ => Except.ok { citations := some [paperNoDOI], references := some [] }
    extAttempts := fun _ _ => Except.ok { externalIds := some [("DOI", "10.2/y")], paperId := some "X" } }

/-- An oracle whose backfill requests succeed without a DOI. -/
def wOracleNoDOI : SemanticOracle :=
  { mainAttempts := fun _ => Except.ok { citations := some [], references := some [] }
    extAttempts := fun _ _ => Except.ok { externalIds := some [("ArXiv", "2101.00001")], paperId := some "X" } }

/-- An oracle whose main request always fails. -/
def wOracleMainFail : SemanticOracle :=
  { mainAttempts := fun _ => Except.error "boom"
    extAttempts := fun _ _ => Except.error "boom" }

/-! Helper lemmas (shared; not tied to any single claim). -/

/-- The cleaned fields of a matched entry are those of `cleanSemanticItem`,
whether or not a library item was found. -/
theorem matchSemanticEntry_item (pd : Option String → Option String)
    (enc : String → String)
    (idc : String → String → List String → List String → List String)
    (s : RelatedPaper) (ds : ZLibraryContents) (rk : RCitekeyPages) :
    (matchSemanticEntry pd enc idc s ds rk).item = cleanSemanticItem pd enc s := by
  cases h : findLibItem pd (cleanSemanticItem pd enc s).doi (cleanSemanticItem pd enc s).title ds.items <;>
    simp [matchSemanticEntry, h]

/-- One `Array.find` scan inspects at most the whole list. -/
theorem findScan_le (p : α → Bool) (l : List α) : findScan p l ≤ l.length := by
  induction l with
  | nil => simp [findScan]
  | cons a l ih =>
    simp only [findScan, List.length_cons]
    by_cases h : p a = true
    · simp [h]
    · simp [h]
      omega

/-- Summing a pointwise-bounded function over a list is bounded by the
length times the bound. -/
theorem sum_map_le (l : List α) (f : α → Nat) (c : Nat)
    (h : ∀ x ∈ l, f x ≤ c) : (l.map f).sum ≤ l.length * c := by
  induction l with
  | nil => simp
  | cons a l ih =>
    simp only [List.map_cons, List.sum_cons, List.length_cons]
    have h1 : f a ≤ c := h a (by simp)
    have h2 : (l.map f).sum ≤ l.length * c := ih (fun x hx => h x (by simp [hx]))
    rw [Nat.succ_mul]
    omega

/-! Claim theorems. -/

/-- C10: makeAuthorsSummary returns the empty string for no names, the
single name for one, the two names joined by " & " for two, "A, B & C"
for three, and the first name followed by " et al." for four or more
names, ignoring all remaining names. -/
theorem makeAuthorsSummary_spec :
    makeAuthorsSummary [] = "" ∧
    (∀ a : String, makeAuthorsSummary [a] = a) ∧
    (∀ a b : String, makeAuthorsSummary [a, b] = a ++ " & " ++ b) ∧
    (∀ a b c : String, makeAuthorsSummary [a, b, c] = a ++ ", " ++ b ++ " & " ++ c) ∧
    (∀ (a b c d : String) (rest : List String),
      makeAuthorsSummary (a :: b :: c :: d :: rest) = a ++ " et al.") :=
  ⟨rfl, fun _ => rfl, fun _ _ => rfl, fun _ _ _ => rfl, fun _ _ _ _ _ => rfl⟩

/-- C9: the backlinks of every `cleanSemantic` result are exactly the
cleaned references followed by the cleaned citations, filtered by
`isSBacklink`; hence they form a sublist of references ++ citations, so
every backlink occurs in one of the two returned lists and all reference
backlinks precede all citation backlinks. -/
theorem cleanSemantic_backlinks (pd : Option String → Option String)
    (enc : String → String)
    (idc : String → String → List String → List String → List String)
    (ds : ZLibraryContents) (sem : SemPayload) (rk : RCitekeyPages) :
    (cleanSemantic pd enc idc ds sem rk).backlinks =
      (cleanSemantic pd enc idc ds sem rk).references.filter isSBacklink ++
      (cleanSemantic pd enc idc ds sem rk).citations.filter isSBacklink ∧
    ((cleanSemantic pd enc idc ds sem rk).backlinks).Sublist
      ((cleanSemantic pd enc idc ds sem rk).references ++
        (cleanSemantic pd enc idc ds sem rk).citations) :=
  ⟨List.filter_append _ _, List.filter_sublist _⟩

/-- C2 counterexample: `cleanSemantic` does not de-duplicate.  On a
payload that lists the same paper twice, the returned citations list has
two entries sharing the same non-null parsed DOI. -/
theorem cleanSemantic_dup_counterexample :
    ((cleanSemantic wPd wEnc wIdc dsEmpty
        { citations := some [dupPaper, dupPaper], references := some [] } []).citations.map
      (fun e => e.props.item.doi)) = [some "10.1/x", some "10.1/x"] ∧
    (cleanSemantic wPd wEnc wIdc dsEmpty
        { citations := some [dupPaper, dupPaper], references := some [] } []).citations.length = 2 :=
  ⟨rfl, rfl⟩

/-- C2 amended: `cleanSemantic` performs no de-duplication; it maps each
payload entry to exactly one output entry, preserving list lengths and
the multiplicity of every parsed DOI. -/
theorem cleanSemantic_multiplicity (pd : Option String → Option String)
    (enc : String → String)
    (idc : String → String → List String → List String → List String)
    (ds : ZLibraryContents) (sem : SemPayload) (rk : RCitekeyPages)
    (d : Option String) :
    (cleanSemantic pd enc idc ds sem rk).citations.length = (sem.citations.getD []).length ∧
    (cleanSemantic pd enc idc ds sem rk).references.length = (sem.references.getD []).length ∧
    ((cleanSemantic pd enc idc ds sem rk).citations.countP
        (fun e => e.props.item.doi == d)) =
      ((sem.citations.getD []).countP (fun c => (cleanSemanticItem pd enc c).doi == d)) ∧
    ((cleanSemantic pd enc idc ds sem rk).references.countP
        (fun e => e.props.item.doi == d)) =
      ((sem.references.getD []).countP (fun c => (cleanSemanticItem pd enc c).doi == d)) := by
  have key : ∀ (l : List RelatedPaper) (ty : SEnrichedItemTypeEnum),
      ((l.map (fun cit =>
          ({ props := matchSemanticEntry pd enc idc cit (withDOIs pd ds) rk,
             type := ty } : SEnrichedItem))).countP
        (fun e => e.props.item.doi == d)) =
      (l.countP (fun c => (cleanSemanticItem pd enc c).doi == d)) := by
    intro l ty
    rw [List.countP_map]
    apply List.countP_congr
    intro c _
    simp [Function.comp, matchSemanticEntry_item]
  exact ⟨List.length_map _ _, List.length_map _ _,
    key (sem.citations.getD []) SEnrichedItemTypeEnum.citing,
    key (sem.references.getD []) SEnrichedItemTypeEnum.cited⟩

/-- C3 counterexample: `cleanSemantic` applies no sorting.  The same two
papers, presented in the two possible payload orders, come back in two
different orders — each identical to its payload order — so the returned
lists are not in any payload-independent sorted order; in particular a
2020 paper stays ahead of a 2010 paper. -/
theorem cleanSemantic_not_sorted :
    ((cleanSemantic wPd wEnc wIdc dsEmpty
        { citations := some [paper2020, paper2010], references := some [] } []).citations.map
      (fun e => e.props.item.year)) = ["2020", "2010"] ∧
    ((cleanSemantic wPd wEnc wIdc dsEmpty
        { citations := some [paper2010, paper2020], references := some [] } []).citations.map
      (fun e => e.props.item.year)) = ["2010", "2020"] :=
  ⟨rfl, rfl⟩

/-- C3 amended: the returned citations and references lists are in the
order of the API payload: entry i of each returned list is the enriched
image of entry i of the corresponding payload list, and the lengths
match; `cleanSemantic` does not sort. -/
theorem cleanSemantic_order (pd : Option String → Option String)
    (enc : String → String)
    (idc : String → String → List String → List String → List String)
    (ds : ZLibraryContents) (sem : SemPayload) (rk : RCitekeyPages) (i : Nat) :
    (cleanSemantic pd enc idc ds sem rk).citations.length = (sem.citations.getD []).length ∧
    (cleanSemantic pd enc idc ds sem rk).references.length = (sem.references.getD []).length ∧
    ((cleanSemantic pd enc idc ds sem rk).citations[i]? =
      ((sem.citations.getD [])[i]?).map (fun c =>
        { props := matchSemanticEntry pd enc idc c (withDOIs pd ds) rk
          type := SEnrichedItemTypeEnum.citing })) ∧
    ((cleanSemantic pd enc idc ds sem rk).references[i]? =
      ((sem.references.getD [])[i]?).map (fun r =>
        { props := matchSemanticEntry pd enc idc r (withDOIs pd ds) rk
          type := SEnrichedItemTypeEnum.cited })) :=
  ⟨List.length_map _ _, List.length_map _ _,
    List.getElem?_map _ (sem.citations.getD []) i,
    List.getElem?_map _ (sem.references.getD []) i⟩

/-- C1: every entry of the view returned by `cleanSemantic` is the result
of `matchSemanticEntry` on the corresponding payload entry, and
`matchSemanticEntry` annotates provenance as claimed: when no library
item matches, `inLibrary` and `inGraph` are false; when a library item
matches, `inLibrary` holds the matched raw item with its identified
children and `inGraph` is the Roam citekey map entry looked up under
"@" ++ the matched item's citekey (false when absent). -/
theorem cleanSemantic_provenance (pd : Option String → Option String)
    (enc : String → String)
    (idc : String → String → List String → List String → List String)
    (ds : ZLibraryContents) (sem : SemPayload) (rk : RCitekeyPages) :
    (∀ s : RelatedPaper,
      findLibItem pd (cleanSemanticItem pd enc s).doi (cleanSemanticItem pd enc s).title ds.items = none →
        (matchSemanticEntry pd enc idc s ds rk).inLibrary = none ∧
        (matchSemanticEntry pd enc idc s ds rk).inGraph = none) ∧
    (∀ (s : RelatedPaper) (it : ZItemTop),
      findLibItem pd (cleanSemanticItem pd enc s).doi (cleanSemanticItem pd enc s).title ds.items = some it →
        (matchSemanticEntry pd enc idc s ds rk).inLibrary =
          some { children := idc it.data.key (it.library.type ++ "s/" ++ toString it.library.id) ds.pdfs ds.notes
                 raw := it } ∧
        (matchSemanticEntry pd enc idc s ds rk).inGraph = rkGet rk ("@" ++ it.key)) ∧
    (∀ e, e ∈ (cleanSemantic pd enc idc ds sem rk).citations →
      ∃ c, c ∈ sem.citations.getD [] ∧
        e = { props := matchSemanticEntry pd enc idc c (withDOIs pd ds) rk
              type := SEnrichedItemTypeEnum.citing }) ∧
    (∀ e, e ∈ (cleanSemantic pd enc idc ds sem rk).references →
      ∃ r, r ∈ sem.references.getD [] ∧
        e = { props := matchSemanticEntry pd enc idc r (withDOIs pd ds) rk
              type := SEnrichedItemTypeEnum.cited }) := by
  refine ⟨?_, ?_, ?_, ?_⟩
  · intro s h
    constructor <;> simp [matchSemanticEntry, h]
  · intro s it h
    constructor <;> simp [matchSemanticEntry, h]
  · intro e he
    obtain ⟨c, hc, rfl⟩ := List.mem_map.mp he
    exact ⟨c, hc, rfl⟩
  · intro e he
    obtain ⟨r, hr, rfl⟩ := List.mem_map.mp he
    exact ⟨r, hr, rfl⟩

/-- Witness for C1: on an empty library the provenance fields are false;
on a library containing a matching item, `inLibrary` holds that item with
its identified children and `inGraph` is its Roam page. -/
theorem cleanSemantic_provenance_witness :
    ((matchSemanticEntry wPd wEnc wIdc dupPaper dsEmpty wRk).inLibrary = none ∧
      (matchSemanticEntry wPd wEnc wIdc dupPaper dsEmpty wRk).inGraph = none) ∧
    ((matchSemanticEntry wPd wEnc wIdc dupPaper dsA wRk).inLibrary =
        some { children := [], raw := libItemA } ∧
      (matchSemanticEntry wPd wEnc wIdc dupPaper dsA wRk).inGraph =
        some { uid := "uid1" }) :=
  ⟨(cleanSemantic_provenance wPd wEnc wIdc dsEmpty semEmpty wRk).1 dupPaper rfl,
    (cleanSemantic_provenance wPd wEnc wIdc dsA semEmpty wRk).2.1 dupPaper libItemA rfl⟩

/-- C4: for an entry with a truthy parsed DOI, the library search first
scans for an exact parsed-DOI match; only when that scan fails does it
scan with the flexible predicate (case-insensitive equality, then
equality after stripping doi.org URL parts and lower-casing); title
matching is attempted only when no library item was found by DOI; and an
entry with no DOI is matched by title only (the title predicate being
normalised equality or, for normalised titles longer than 20 characters,
substring containment in either direction). -/
theorem findLibItem_doi_before_title (pd : Option String → Option String)
    (d : String) (title : String) (items : List ZItemTop) :
    (∀ it, (d == "") = false → items.find? (exactDOIPred pd d) = some it →
      findLibItem pd (some d) title items = some it) ∧
    (∀ it, (d == "") = false → items.find? (exactDOIPred pd d) = none →
      items.find? (flexDOIPred pd d) = some it →
      findLibItem pd (some d) title items = some it) ∧
    ((d == "") = false → items.find? (exactDOIPred pd d) = none →
      items.find? (flexDOIPred pd d) = none →
      findLibItem pd (some d) title items = findLibItem pd none title items) ∧
    (findLibItem pd none title items =
      if title == "" then none else items.find? (titleMatchPred (normalizeTitle title))) := by
  refine ⟨?_, ?_, ?_, ?_⟩
  · intro it hd hfind
    simp [findLibItem, hd, hfind]
  · intro it hd hexact hflex
    simp [findLibItem, hd, hexact, hflex]
  · intro hd hexact hflex
    simp [findLibItem, hd, hexact, hflex]
  · rfl

set_option maxRecDepth 4096 in
/-- Witness for C4: an exact DOI match is taken first; a flexible
(case-insensitive) DOI match is taken when the exact scan fails; when
both DOI scans fail the search behaves as if there were no DOI; and with
no DOI the search is by title only. -/
theorem findLibItem_doi_before_title_witness :
    findLibItem wPd (some "10.1/x") "An example library title" [libItemA] = some libItemA ∧
    findLibItem wPd (some "10.1/X") "An example library title" [libItemA] = some libItemA ∧
    findLibItem wPd (some "10.9/z") "An example library title" [libItemA] =
      findLibItem wPd none "An example library title" [libItemA] ∧
    findLibItem wPd none "An example library title" [libItemA] =
      [libItemA].find? (titleMatchPred (normalizeTitle "An example library title")) :=
  ⟨(findLibItem_doi_before_title wPd "10.1/x" "An example library title" [libItemA]).1
      libItemA rfl rfl,
    (findLibItem_doi_before_title wPd "10.1/X" "An example library title" [libItemA]).2.1
      libItemA rfl rfl rfl,
    (findLibItem_doi_before_title wPd "10.9/z" "An example library title" [libItemA]).2.2.1
      rfl (by decide) (by decide),
    (findLibItem_doi_before_title wPd "ignored" "An example library title" [libItemA]).2.2.2⟩

/-- C6: the backfill fan-out of `augmentDOIs` is a pointwise map over the
input list — each output entry is a function of the corresponding input
entry alone, and an entry's result depends only on the attempt outcomes
of its own lookup (no lookup reads another's result) — and at most one
lookup is issued per entry, so the number of in-flight calls is bounded
by the length of the input list. -/
theorem augmentDOIs_independent_bounded (oracle oracle' : SemanticOracle)
    (l : List RelatedPaper) (p : RelatedPaper) (i : Nat) :
    augmentDOIs oracle none = [] ∧
    (augmentDOIs oracle (some l)).length = l.length ∧
    (augmentDOIs oracle (some l))[i]? = (l[i]?).map (augmentOne oracle) ∧
    (issuedLookups l).length ≤ l.length ∧
    (oracle.extAttempts (p.paperId.getD "") = oracle'.extAttempts (p.paperId.getD "") →
      augmentOne oracle p = augmentOne oracle' p) := by
  refine ⟨rfl, List.length_map _ _, List.getElem?_map _ l i,
    List.length_filterMap_le _ _, ?_⟩
  intro h
  simp [augmentOne, fetchExternalIdsByPaperId, h]

/-- Witness for C6: two oracles that agree on the backfill attempts for
the entry's paperId (but differ on the main request) produce the same
augmented entry. -/
theorem augmentDOIs_independent_bounded_witness :
    augmentOne wOracleBackfillFail paperNoDOI = augmentOne wOracleBackfillFail2 paperNoDOI :=
  (augmentDOIs_independent_bounded wOracleBackfillFail wOracleBackfillFail2 [] paperNoDOI 0).2.2.2.2 rfl

/-- C8: `augmentDOIs` maps a missing input to the empty list and
otherwise preserves the length and order of its input; an entry is
returned unchanged when it already has a truthy `externalIds.DOI`, has
no truthy `paperId`, its backfill lookup fails, or the lookup returns no
DOI; and when an entry is changed, only its `externalIds` field changes,
to the JavaScript spread merge of its own ids with the fetched ids. -/
theorem augmentDOIs_frame (oracle : SemanticOracle) (l : List RelatedPaper)
    (p : RelatedPaper) :
    augmentDOIs oracle none = [] ∧
    augmentDOIs oracle (some l) = l.map (augmentOne oracle) ∧
    (jsStrTruthy (extDOI p.externalIds) = true → augmentOne oracle p = p) ∧
    (jsStrTruthy p.paperId = false → augmentOne oracle p = p) ∧
    (fetchExternalIdsByPaperId oracle (p.paperId.getD "") = none →
      augmentOne oracle p = p) ∧
    (∀ fetched, fetchExternalIdsByPaperId oracle (p.paperId.getD "") = some fetched →
      jsStrTruthy (extDOI fetched.externalIds) = false → augmentOne oracle p = p) ∧
    (∀ fetched, jsStrTruthy (extDOI p.externalIds) = false →
      jsStrTruthy p.paperId = true →
      fetchExternalIdsByPaperId oracle (p.paperId.getD "") = some fetched →
      jsStrTruthy (extDOI fetched.externalIds) = true →
      augmentOne oracle p =
        { p with externalIds := some (jsSpreadMerge (p.externalIds.getD []) (fetched.externalIds.getD [])) }) := by
  refine ⟨rfl, rfl, ?_, ?_, ?_, ?_, ?_⟩
  · intro h
    simp [augmentOne, h]
  · intro h
    simp [augmentOne, h]
  · intro h
    by_cases hg : (jsStrTruthy (extDOI p.externalIds) || !(jsStrTruthy p.paperId)) = true
    · simp [augmentOne, hg]
    · simp [augmentOne, hg, h]
  · intro fetched hf hdoi
    by_cases hg : (jsStrTruthy (extDOI p.externalIds) || !(jsStrTruthy p.paperId)) = true
    · simp [augmentOne, hg]
    · simp [augmentOne, hg, hf, hdoi]
  · intro fetched h1 h2 hf hdoi
    simp [augmentOne, h1, h2, hf, hdoi]

/-- Witness for C8: an entry with a DOI, an entry without a paperId, an
entry whose lookup fails, and an entry whose lookup returns no DOI are
all returned unchanged; an entry whose lookup fetches a DOI gets exactly
its `externalIds` field updated to the merged ids. -/
theorem augmentDOIs_frame_witness :
    augmentOne wOracleOk dupPaper = dupPaper ∧
    augmentOne wOracleOk paperNoId = paperNoId ∧
    augmentOne wOracleBackfillFail paperNoDOI = paperNoDOI ∧
    augmentOne wOracleNoDOI paperNoDOI = paperNoDOI ∧
    augmentOne wOracleOk paperNoDOI =
      { paperNoDOI with externalIds := some [("DOI", "10.2/y")] } :=
  ⟨(augmentDOIs_frame wOracleOk [] dupPaper).2.2.1 rfl,
    (augmentDOIs_frame wOracleOk [] paperNoId).2.2.2.1 rfl,
    (augmentDOIs_frame wOracleBackfillFail [] paperNoDOI).2.2.2.2.1 rfl,
    (augmentDOIs_frame wOracleNoDOI [] paperNoDOI).2.2.2.2.2.1
      { externalIds := some [("ArXiv", "2101.00001")], paperId := some "X" } rfl rfl,
    (augmentDOIs_frame wOracleOk [] paperNoDOI).2.2.2.2.2.2
      { externalIds := some [("DOI", "10.2/y")], paperId := some "X" } rfl rfl rfl rfl⟩

/-- Unfolding lemma for one retry step. -/
theorem runRetryFrom_succ (attempts : Nat → Except String α) (i fuel : Nat) :
    runRetryFrom attempts i (fuel + 1) =
      match attempts i with
      | Except.ok a => Except.ok a
      | Except.error _ => runRetryFrom attempts (i + 1) fuel := rfl

/-- The retried request inspects only the attempts within its budget. -/
theorem runRetryFrom_congr (a a' : Nat → Except String α) (i fuel : Nat)
    (h : ∀ j, i ≤ j → j ≤ i + fuel → a j = a' j) :
    runRetryFrom a i fuel = runRetryFrom a' i fuel := by
  induction fuel generalizing i with
  | zero =>
    show a i = a' i
    exact h i le_rfl (by omega)
  | succ n ih =>
    rw [runRetryFrom_succ, runRetryFrom_succ, h i le_rfl (by omega)]
    cases ha : a' i with
    | ok v => rfl
    | error e => exact ih (i + 1) (fun j hj1 hj2 => h j (by omega) (by omega))

/-- When every attempt within the budget but the last fails, the retried
request returns the outcome of the last attempt. -/
theorem runRetryFrom_all_fail (a : Nat → Except String α) (i fuel : Nat)
    (h : ∀ j, i ≤ j → j < i + fuel → exceptIsOk (a j) = false) :
    runRetryFrom a i fuel = a (i + fuel) := by
  induction fuel generalizing i with
  | zero => simp [runRetryFrom]
  | succ n ih =>
    have hi : exceptIsOk (a i) = false := h i le_rfl (by omega)
    cases ha : a i with
    | ok v =>
      rw [ha] at hi
      simp [exceptIsOk] at hi
    | error e =>
      rw [runRetryFrom_succ, ha]
      rw [ih (i + 1) (fun j hj1 hj2 => h j (by omega) (by omega))]
      rw [show i + 1 + n = i + (n + 1) from by omega]

/-- C5 counterexample: an oracle whose main request succeeds but whose
backfill request fails on every attempt.  The backfill request's retries
are exhausted (its retried outcome is still a failure), yet
`fetchSemantic` neither reports the error nor rejects: it resolves
successfully with the entry left unchanged. -/
theorem fetchSemantic_swallows_backfill_failure :
    exceptIsOk (runWithRetry semanticRetries (wOracleBackfillFail.extAttempts "X")) = false ∧
    (fetchSemantic (fun l => l) wOracleBackfillFail "10.0/main").errorReported = false ∧
    (fetchSemantic (fun l => l) wOracleBackfillFail "10.0/main").result =
      Except.ok { doi := "10.0/main", citations := [paperNoDOI], references := [] } :=
  ⟨rfl, rfl, rfl⟩

/-- C5 amended: every request through the client is retried a fixed
number of times — its outcome depends only on attempts 0..3, and when
the first three attempts fail it is the outcome of the fourth attempt.
When retries are exhausted on the main paper request, `fetchSemantic`
reports the error and rejects with it; but when retries are exhausted on
a per-entry backfill request, the error is swallowed: the entry is
returned unchanged and, if the main request succeeded, `fetchSemantic`
resolves with no error report. -/
theorem fetchSemantic_retry_behavior :
    (∀ (α : Type) (attempts attempts' : Nat → Except String α),
      (∀ i, i ≤ semanticRetries → attempts i = attempts' i) →
      runWithRetry semanticRetries attempts = runWithRetry semanticRetries attempts') ∧
    (∀ (α : Type) (attempts : Nat → Except String α),
      (∀ i, i < semanticRetries → exceptIsOk (attempts i) = false) →
      runWithRetry semanticRetries attempts = attempts semanticRetries) ∧
    (∀ tdois oracle doi e,
      runWithRetry semanticRetries oracle.mainAttempts = Except.error e →
      fetchSemantic tdois oracle doi =
        { result := Except.error e, errorReported := true }) ∧
    (∀ oracle (p : RelatedPaper) e, jsStrTruthy (extDOI p.externalIds) = false →
      jsStrTruthy p.paperId = true →
      runWithRetry semanticRetries (oracle.extAttempts (p.paperId.getD "")) = Except.error e →
      augmentOne oracle p = p) ∧
    (∀ tdois oracle doi item,
      runWithRetry semanticRetries oracle.mainAttempts = Except.ok item →
      (fetchSemantic tdois oracle doi).errorReported = false) := by
  refine ⟨?_, ?_, ?_, ?_, ?_⟩
  · intro α a a' h
    exact runRetryFrom_congr a a' 0 semanticRetries
      (fun j hj1 hj2 => h j (by simp only [semanticRetries] at hj2 ⊢; omega))
  · intro α a h
    exact runRetryFrom_all_fail a 0 semanticRetries
      (fun j hj1 hj2 => h j (by simp only [semanticRetries] at hj2 ⊢; omega))
  · intro tdois oracle doi e h
    simp [fetchSemantic, h]
  · intro oracle p e h1 h2 h3
    simp [augmentOne, fetchExternalIdsByPaperId, h1, h2, h3]
  · intro tdois oracle doi item h
    simp [fetchSemantic, h]

/-- Witness for C5 amended: a main request failing on every attempt makes
`fetchSemantic` report and reject; a backfill request failing on every
attempt leaves the entry unchanged. -/
theorem fetchSemantic_retry_behavior_witness :
    fetchSemantic (fun l => l) wOracleMainFail "10.0/main" =
      { result := Except.error "boom", errorReported := true } ∧
    augmentOne wOracleBackfillFail paperNoDOI = paperNoDOI :=
  ⟨fetchSemantic_retry_behavior.2.2.1 (fun l => l) wOracleMainFail "10.0/main" "boom" rfl,
    fetchSemantic_retry_behavior.2.2.2.1 wOracleBackfillFail paperNoDOI "network error"
      rfl rfl rfl⟩

/-- The search for one entry examines at most three full scans of the
library list. -/
theorem matchScanCount_le (pd : Option String → Option String) (doi : Option String)
    (title : String) (items : List ZItemTop) :
    matchScanCount pd doi title items ≤ 3 * items.length := by
  have h1 := findScan_le (exactDOIPred pd (doi.getD "")) items
  have h2 := findScan_le (flexDOIPred pd (doi.getD "")) items
  have ht := findScan_le (titleMatchPred (normalizeTitle title)) items
  cases doi with
  | none =>
    by_cases htt : (title == "") = true <;> simp [matchScanCount, htt]
    omega
  | some d =>
    simp only [Option.getD] at h1 h2
    by_cases hd : (d == "") = true
    · by_cases htt : (title == "") = true <;> simp [matchScanCount, hd, htt]
      omega
    · cases hex : items.find? (exactDOIPred pd d) with
      | some it =>
        simp [matchScanCount, hd, hex]
        omega
      | none =>
        cases hflex : items.find? (flexDOIPred pd d) with
        | some it =>
          simp [matchScanCount, hd, hex, hflex]
          omega
        | none =>
          by_cases htt : (title == "") = true <;>
            simp [matchScanCount, hd, hex, hflex, htt] <;> omega

/-- C7: the matching between the payload and the library is a linear
scan: each entry examines the library items in list order at most three
times (so at most 3·m items for a library of m items), every found item
is a member of the library list satisfying one of the three match
predicates (each scan returning the first such item), and the whole
payload of n entries examines at most 3·n·m items. -/
theorem matchSemanticEntry_linear_scan :
    (∀ (pd : Option String → Option String) (doi : Option String) (title : String)
        (items : List ZItemTop),
      matchScanCount pd doi title items ≤ 3 * items.length) ∧
    (∀ (pd : Option String → Option String) (doi : Option String) (title : String)
        (items : List ZItemTop) (it : ZItemTop),
      findLibItem pd doi title items = some it →
        it ∈ items ∧
        ((∃ d, doi = some d ∧ (exactDOIPred pd d it || flexDOIPred pd d it) = true) ∨
          titleMatchPred (normalizeTitle title) it = true)) ∧
    (∀ (pd : Option String → Option String) (enc : String → String)
        (ds : ZLibraryContents) (sem : SemPayload),
      cleanSemanticScanCount pd enc ds sem ≤
        3 * (((sem.citations.getD []).length + (sem.references.getD []).length) *
          ds.items.length)) := by
  refine ⟨matchScanCount_le, ?_, ?_⟩
  · intro pd doi title items it h
    cases doi with
    | none =>
      by_cases htt : (title == "") = true <;> simp [findLibItem, htt] at h
      exact ⟨List.mem_of_find?_eq_some h, Or.inr (List.find?_some h)⟩
    | some d =>
      by_cases hd : (d == "") = true
      · by_cases htt : (title == "") = true <;> simp [findLibItem, hd, htt] at h
        exact ⟨List.mem_of_find?_eq_some h, Or.inr (List.find?_some h)⟩
      · cases hex : items.find? (exactDOIPred pd d) with
        | some it2 =>
          simp [findLibItem, hd, hex] at h
          subst h
          exact ⟨List.mem_of_find?_eq_some hex,
            Or.inl ⟨d, rfl, by simp [List.find?_some hex]⟩⟩
        | none =>
          cases hflex : items.find? (flexDOIPred pd d) with
          | some it2 =>
            simp [findLibItem, hd, hex, hflex] at h
            subst h
            exact ⟨List.mem_of_find?_eq_some hflex,
              Or.inl ⟨d, rfl, by simp [List.find?_some hflex]⟩⟩
          | none =>
            by_cases htt : (title == "") = true <;>
              simp [findLibItem, hd, hex, hflex, htt] at h
            exact ⟨List.mem_of_find?_eq_some h, Or.inr (List.find?_some h)⟩
  · intro pd enc ds sem
    have hm : (withDOIs pd ds).items.length ≤ ds.items.length :=
      List.length_filter_le _ _
    have hb : ∀ s ∈ (sem.citations.getD []) ++ (sem.references.getD []),
        (fun s => matchScanCount pd (cleanSemanticItem pd enc s).doi
          (cleanSemanticItem pd enc s).title (withDOIs pd ds).items) s ≤
          3 * ds.items.length := by
      intro s _
      show matchScanCount pd (cleanSemanticItem pd enc s).doi
        (cleanSemanticItem pd enc s).title (withDOIs pd ds).items ≤ 3 * ds.items.length
      have := matchScanCount_le pd (cleanSemanticItem pd enc s).doi
        (cleanSemanticItem pd enc s).title (withDOIs pd ds).items
      omega
    have hsum := sum_map_le ((sem.citations.getD []) ++ (sem.references.getD []))
      (fun s => matchScanCount pd (cleanSemanticItem pd enc s).doi
        (cleanSemanticItem pd enc s).title (withDOIs pd ds).items)
      (3 * ds.items.length) hb
    have hlen : ((sem.citations.getD []) ++ (sem.references.getD [])).length =
        (sem.citations.getD []).length + (sem.references.getD []).length :=
      List.length_append _ _
    calc cleanSemanticScanCount pd enc ds sem
        ≤ ((sem.citations.getD []) ++ (sem.references.getD [])).length *
            (3 * ds.items.length) := hsum
      _ = 3 * (((sem.citations.getD []).length + (sem.references.getD []).length) *
            ds.items.length) := by rw [hlen]; ring

/-- Witness for C7: on a one-item library, an entry whose DOI matches is
found as a member of the library satisfying the exact-DOI predicate. -/
theorem matchSemanticEntry_linear_scan_witness :
    libItemA ∈ [libItemA] ∧
    ((∃ d, (some "10.1/x" : Option String) = some d ∧
        (exactDOIPred wPd d libItemA || flexDOIPred wPd d libItemA) = true) ∨
      titleMatchPred (normalizeTitle "An example library title") libItemA = true) :=
  matchSemanticEntry_linear_scan.2.1 wPd (some "10.1/x") "An example library title"
    [libItemA] libItemA rfl

end ZoteroRoam
